import Mathlib

/-!
Verification of the Ursa network service event loop.

A shallow embedding of the command handler, the swarm-event handler and the
swarm construction constants of `UrsaService`
(`crates/ursa-network/src/service.rs`) and of the identify handler of
`Behaviour` (`network/src/behaviour.rs`).

Opaque identifiers (CIDs, peer ids, query ids, reply sinks, request ids,
messages) are modelled as `Nat`; the block store is modelled by its
`contains` interface, a function `Nat → Option Bool` where `none` stands
for a store error (which the source unwraps, i.e. panics on).  Effects on
the swarm (dispatched queries, published messages) and deliveries on reply
sinks are made explicit as data returned by the handler functions.
-/

namespace Ursa

/-- The pending-query table `response_channels : FnvHashMap<Cid, Vec<BlockSenderChannel>>`,
modelled as an association list from CID to the registered reply sinks in
registration order.  The service only ever builds it through `registerSink`
and `removeEntry`, so keys stay distinct. -/
abbrev Table := List (Nat × List Nat)

/-- A value delivered on a waiter's reply sink by the bitswap-completion
branch of `handle_swarm_event`: `Ok(())` or `Err(msg)`. -/
inductive Reply where
  | ok : Reply
  | err (msg : String) : Reply
deriving DecidableEq, Repr

/-- The error message built at service.rs:301:
`"The requested block with cid {:?} is not found with any peers"`,
with the CID rendered into the text. -/
def notFoundMsg (cid : Nat) : String :=
  "The requested block with cid " ++ toString cid ++ " is not found with any peers"

/-- The error message at service.rs:531. -/
def noPeersMsg : String :=
  "There were no peers provided and the block does not exist in local store"

/-- `BitswapInfo` carried by `BehaviourEvent::Bitswap` (service.rs:268). -/
structure BitswapInfo where
  cid : Nat
  queryId : Nat
  blockFound : Bool
deriving DecidableEq, Repr

/-- `self.response_channels.remove(&cid)` (service.rs:282): take the whole
waiter list for `cid` out of the table, erasing the entry. -/
def removeEntry (table : Table) (cid : Nat) : Option (List Nat × Table) :=
  match table.lookup cid with
  | none => none
  | some chans => some (chans, table.filter (fun e => e.1 != cid))

/-- Registration of a reply sink (service.rs:535-539): push onto the
existing entry for `cid`, or insert a fresh one-element entry. -/
def registerSink (table : Table) (cid : Nat) (s : Nat) : Table :=
  match table.lookup cid with
  | some _ => table.map (fun e => if e.1 = cid then (e.1, e.2 ++ [s]) else e)
  | none => table ++ [(cid, [s])]

/-- The delivery loop of service.rs:294-305: for each registered sink in
order, call `blockstore.contains(..).unwrap()` and send `Ok(())` when the
block is present, else `Err(notFoundMsg cid)`.  A store error (`none` from
`contains`) is unwrapped by the source, i.e. the whole handler panics:
modelled as `none`. -/
def deliverAll (contains : Nat → Option Bool) (cid : Nat) :
    List Nat → Option (List (Nat × Reply))
  | [] => some []
  | ch :: rest =>
    match contains cid with
    | none => none
    | some present =>
      (deliverAll contains cid rest).map
        (fun rs => (ch, if present then Reply.ok else Reply.err (notFoundMsg cid)) :: rs)

/-- The busy wait of service.rs:287-291, `loop { if contains { break } }`,
run against a time-indexed view of the store: `pres t` is what
`blockstore.contains` returns on the `t`-th poll (the store may be written
concurrently by the bitswap substream, which is the reason the source gives
for the loop).  `waitForBlock pres fuel` observes the loop for `fuel`
polls and returns the index of the poll at which it broke out, if it did.
The source loop has no sleep, back-off or timeout: each step is an
immediate re-poll. -/
def waitForBlock (pres : Nat → Bool) : Nat → Option Nat
  | 0 => none
  | fuel + 1 =>
    if pres 0 then some 0
    else (waitForBlock (fun t => pres (t + 1)) fuel).map Nat.succ

/-- Termination behaviour of a handler invocation: it returns, panics
(a Rust `unwrap`/`expect`/`todo!` fires), or never returns. -/
inductive Run (α : Type) where
  | done (a : α) : Run α
  | panic : Run α
  | hang : Run α
deriving DecidableEq, Repr

/-- What one run of the bitswap-completion branch of `handle_swarm_event`
did: the query it cancelled, the metric labels it recorded, the table it
left behind, the replies it sent to waiters, and the external events it
emitted (this branch emits none). -/
structure BitswapStep where
  cancelled : List Nat
  metric : List (Nat × Nat × Bool)
  table : Table
  replies : List (Nat × Reply)
  events : List Nat
deriving DecidableEq, Repr

/-- The `BehaviourEvent::Bitswap` branch of `handle_swarm_event`
(service.rs:268-310), over a store snapshot `contains` that is stable for
the duration of the handler.  The query is cancelled and the metric
recorded unconditionally; then the waiter list for the cid is removed in
one step.  No entry: the result is dropped with a debug record.  Entry
present and `blockFound`: the source busy-waits on `contains`; with a
stable store this breaks immediately when the block is present and never
returns when it is absent (`Run.hang`); a store error panics the `unwrap`.
Then each waiter is completed in registration order via `deliverAll`. -/
def handleBitswapEvent (contains : Nat → Option Bool) (table : Table)
    (info : BitswapInfo) : Run BitswapStep :=
  let cancelled := [info.queryId]
  let metric := [(info.cid, info.queryId, info.blockFound)]
  match removeEntry table info.cid with
  | none => .done ⟨cancelled, metric, table, [], []⟩
  | some (chans, table') =>
    if info.blockFound then
      match contains info.cid with
      | none => .panic
      | some present =>
        if present then
          match deliverAll contains info.cid chans with
          | none => .panic
          | some rs => .done ⟨cancelled, metric, table', rs, []⟩
        else .hang
    else
      match deliverAll contains info.cid chans with
      | none => .panic
      | some rs => .done ⟨cancelled, metric, table', rs, []⟩

/-! ## Commands and the command handler (`handle_command`, service.rs:523-593) -/

/-- `BitswapType` (service.rs:110-114). -/
inductive BitswapType where
  | get : BitswapType
  | sync : BitswapType
deriving DecidableEq, Repr

/-- `UrsaCommand` (service.rs:70-108).  Payloads are opaque ids; the reply
sink of each variant is carried as a `Nat` identifier. -/
inductive UrsaCommand where
  | getBitswap (cid : Nat) (query : BitswapType) (sender : Nat) : UrsaCommand
  | put (cid : Nat) (sender : Nat) : UrsaCommand
  | getPeers (sender : Nat) : UrsaCommand
  | startProviding (cids : List Nat) (sender : Nat) : UrsaCommand
  | sendRequest (peerId : Nat) (request : Nat) (channel : Nat) : UrsaCommand
  | sendResponse (requestId : Nat) (response : Nat) (channel : Nat) : UrsaCommand
  | gossipsubMessage (topic : String) (message : Nat) : UrsaCommand
deriving DecidableEq, Repr

/-- A side effect the command handler performs on the swarm behaviour. -/
inductive Effect where
  | queryGetBlock (cid : Nat) (peers : List Nat) : Effect
  | querySyncBlock (cid : Nat) (peers : List Nat) : Effect
  | publishAd (cids : List Nat) : Effect
  | sendRequestTo (peer : Nat) (request : Nat) (channel : Nat) : Effect
  | publish (topic : String) (message : Nat) : Effect
deriving DecidableEq, Repr

/-- A value the command handler sends directly on a command's reply sink. -/
inductive ReplyVal where
  | okUnit : ReplyVal
  | errMsg (msg : String) : ReplyVal
  | peersVal (peers : List Nat) : ReplyVal
  | okCids (cids : List Nat) : ReplyVal
deriving DecidableEq, Repr

/-- What one run of `handle_command` did: the table it left behind, the
replies it sent, and the behaviour effects it performed. -/
structure CommandStep where
  table : Table
  replies : List (Nat × ReplyVal)
  effects : List Effect
deriving DecidableEq, Repr

/-- `UrsaService::handle_command` (service.rs:523-593), with the current
peer set read from the behaviour passed in as `peers`.
`GetBitswap` with no peers sends the no-peers error and touches nothing
else; with peers it registers the sink and dispatches the matching query.
`Put` does nothing (its sender is dropped unused).  `GetPeers` replies
with the snapshot.  `StartProviding` publishes an ad and replies
`Ok(cids)`.  `SendRequest` forwards to the request/response protocol.
`SendResponse` is `todo!()` in the source: it panics.
`GossipsubMessage` publishes (a publish error is only warned about). -/
def handle_command (peers : List Nat) (table : Table) :
    UrsaCommand → Run CommandStep
  | .getBitswap cid query sender =>
    if peers.isEmpty then
      .done ⟨table, [(sender, .errMsg noPeersMsg)], []⟩
    else
      .done ⟨registerSink table cid sender, [],
        [match query with
         | .get => Effect.queryGetBlock cid peers
         | .sync => Effect.querySyncBlock cid peers]⟩
  | .put _ _ => .done ⟨table, [], []⟩
  | .getPeers sender => .done ⟨table, [(sender, .peersVal peers)], []⟩
  | .startProviding cids sender =>
    .done ⟨table, [(sender, .okCids cids)], [.publishAd cids]⟩
  | .sendRequest peerId request channel =>
    .done ⟨table, [], [.sendRequestTo peerId request channel]⟩
  | .sendResponse _ _ _ => .panic
  | .gossipsubMessage topic message => .done ⟨table, [], [.publish topic message]⟩

/-! ## NAT status handling (`BehaviourEvent::NatStatusChanged`, service.rs:455-485) -/

/-- One component of a multiaddress; only the components the handler
appends are distinguished. -/
inductive Proto where
  | p2p (peer : Nat) : Proto
  | p2pCircuit : Proto
  | other (tag : Nat) : Proto
deriving DecidableEq, Repr

/-- A multiaddress as its component list. -/
abbrev Multiaddr := List Proto

/-- `libp2p::autonat::NatStatus`. -/
inductive NatStatus where
  | Unknown : NatStatus
  | Private : NatStatus
  | Public (addr : Multiaddr) : NatStatus
deriving DecidableEq, Repr

/-- What the NAT-status branch did. -/
inductive NatAction where
  | listenOn (addr : Multiaddr) : NatAction
  | panicListenFailed : NatAction
  | logPublic (addr : Multiaddr) : NatAction
  | warnTransition : NatAction
  | noAction : NatAction
deriving DecidableEq, Repr

/-- `SliceRandom::choose` (service.rs:461-464): `none` on an empty slice,
otherwise the element at a uniformly random index; the random draw is
passed in as `r` and reduced mod the length. -/
def chooseUniform {α : Type} (l : List α) (r : Nat) : Option α :=
  match l with
  | [] => none
  | _ => l.get? (r % l.length)

/-- The `BehaviourEvent::NatStatusChanged` branch (service.rs:455-485).
`Unknown → Private` with the relay client enabled picks one bootstrap
`(peer, addr)` pair at random, appends `/p2p/<peer>/p2p-circuit` and
listens on the result; `expect` makes a listen failure a panic.  Any
transition into `Public` is info-logged; every other transition is
warn-logged. -/
def handleNatStatusChanged (relayEnabled : Bool)
    (bootstrapAddrs : List (Nat × Multiaddr)) (r : Nat)
    (listenOk : Multiaddr → Bool) :
    NatStatus → NatStatus → NatAction
  | .Unknown, .Private =>
    if relayEnabled then
      match chooseUniform bootstrapAddrs r with
      | some (relayPeer, relayAddr) =>
        let addr := relayAddr ++ [Proto.p2p relayPeer, Proto.p2pCircuit]
        if listenOk addr then .listenOn addr else .panicListenFailed
      | none => .noAction
    else .noAction
  | _, .Public a => .logPublic a
  | _, _ => .warnTransition

/-! ## Identify handling (`Behaviour::handle_identify`, behaviour.rs:213-240) -/

/-- Modelled from the spec: `PROTOCOL_NAME`, the service's protocol name
referenced by `behaviour.rs` but defined in a file not present under
`src/`; the spec gives it as `"/ursa/0.0.1"`. -/
def PROTOCOL_NAME : String := "/ursa/0.0.1"

/-- The fields of `IdentifyInfo` that `handle_identify` reads. -/
structure IdentifyInfo where
  protocols : List String
  listenAddrs : List Multiaddr
deriving DecidableEq, Repr

/-- The state `handle_identify` touches: the gossipsub explicit-peer set
and the discovery and request/response address books. -/
structure IdentifyState where
  gossipExplicitPeers : List Nat
  discoveryAddrs : List (Nat × Multiaddr)
  rrAddrs : List (Nat × Multiaddr)
deriving DecidableEq, Repr

/-- `Gossipsub::add_explicit_peer`: insert into a set (idempotent). -/
def addExplicitPeer (peersSet : List Nat) (p : Nat) : List Nat :=
  if p ∈ peersSet then peersSet else peersSet ++ [p]

/-- `Behaviour::handle_identify` on `IdentifyEvent::Received`
(behaviour.rs:215-235): if any advertised protocol equals
`PROTOCOL_NAME`, add the peer as an explicit gossip peer and add every
listen address to the discovery and request/response address books;
otherwise change nothing. -/
def handle_identify (st : IdentifyState) (peerId : Nat) (info : IdentifyInfo) :
    IdentifyState :=
  if info.protocols.any (fun name => name = PROTOCOL_NAME) then
    { gossipExplicitPeers := addExplicitPeer st.gossipExplicitPeers peerId
      discoveryAddrs := st.discoveryAddrs ++ info.listenAddrs.map (fun a => (peerId, a))
      rrAddrs := st.rrAddrs ++ info.listenAddrs.map (fun a => (peerId, a)) }
  else st

/-! ## Swarm construction constants (`UrsaService::new`, service.rs:195-210) -/

/-- `with_max_pending_incoming(Some(2 << 9))`. -/
def max_pending_incoming : Nat := 2 <<< 9

/-- `with_max_pending_outgoing(Some(2 << 9))`. -/
def max_pending_outgoing : Nat := 2 <<< 9

/-- `with_max_established_incoming(Some(2 << 9))`. -/
def max_established_incoming : Nat := 2 <<< 9

/-- `with_max_established_outgoing(Some(2 << 9))`. -/
def max_established_outgoing : Nat := 2 <<< 9

/-- `with_max_established_per_peer(Some(8))`. -/
def max_established_per_peer : Nat := 8

/-- `dial_concurrency_factor(NonZeroU8::new(8).unwrap())`. -/
def dial_concurrency_factor : Nat := 8

/-- `notify_handler_buffer_size(NonZeroUsize::new(2 << 7).unwrap())`. -/
def notify_handler_buffer_size : Nat := 2 <<< 7

/-- `connection_event_buffer_size(2 << 7)`. -/
def connection_event_buffer_size : Nat := 2 <<< 7

/-! ## The service loop (`UrsaService::start`, service.rs:600-618) -/

/-- One arm of the `select!` in the service loop: the next swarm event or
the next command, where `none` is an exhausted stream. -/
inductive LoopInput where
  | swarmEvent (e : Option Nat) : LoopInput
  | command (c : Option UrsaCommand) : LoopInput
deriving DecidableEq, Repr

/-- The loop body of `UrsaService::start` (service.rs:606-617): an
exhausted stream collapses the loop with an error through
`ok_or_else(..)?`; any delivered item is passed to its handler, whose
`Result` is discarded, and the loop continues (`Except.ok ()`). -/
def loopStep : LoopInput → Except String Unit
  | .swarmEvent none => .error "Swarm Event invalid!"
  | .swarmEvent (some _) => .ok ()
  | .command none => .error "Command invalid!"
  | .command (some _) => .ok ()

/-- `true` exactly when the handler invocation returned. -/
def Run.isDone {α : Type} : Run α → Bool
  | .done _ => true
  | .panic => false
  | .hang => false

end Ursa

namespace Ursa

/-! ## Helper lemmas -/

/-- When the store snapshot answers every `contains` call for `cid` with
`some b`, the delivery loop completes and sends every sink, in order, the
reply determined by `b`. -/
theorem deliverAll_const (contains : Nat → Option Bool) (cid : Nat) (b : Bool)
    (chans : List Nat) (hc : contains cid = some b) :
    deliverAll contains cid chans =
      some (chans.map
        (fun ch => (ch, if b then Reply.ok else Reply.err (notFoundMsg cid)))) := by
  induction chans with
  | nil => rfl
  | cons ch rest ih => simp [deliverAll, hc, ih]

/-- Filtering a CID's entries out of a table leaves no binding for it. -/
theorem lookup_filter_ne_self (cid : Nat) :
    ∀ t : Table, (t.filter (fun e => e.1 != cid)).lookup cid = none
  | [] => rfl
  | (k, v) :: t => by
    by_cases hk : k = cid
    · simpa [List.filter_cons, hk] using lookup_filter_ne_self cid t
    · have hb : (cid == k) = false := beq_eq_false_iff_ne.mpr (Ne.symm hk)
      simpa [List.filter_cons, hk, List.lookup_cons, hb] using
        lookup_filter_ne_self cid t

/-- Appending `[s]` to the entry of `cid` changes its binding accordingly. -/
theorem lookup_map_bump_self (cid s : Nat) :
    ∀ t : Table,
      (t.map (fun e => if e.1 = cid then (e.1, e.2 ++ [s]) else e)).lookup cid
        = (t.lookup cid).map (fun v => v ++ [s])
  | [] => rfl
  | (k, v) :: t => by
    by_cases hk : k = cid
    · subst hk
      simp [List.lookup_cons]
    · have hb : (cid == k) = false := beq_eq_false_iff_ne.mpr (Ne.symm hk)
      simpa [List.lookup_cons, hk, hb] using lookup_map_bump_self cid s t

/-- Appending `[s]` to the entry of `cid` leaves other bindings alone. -/
theorem lookup_map_bump_other (cid s c : Nat) (hne : c ≠ cid) :
    ∀ t : Table,
      (t.map (fun e => if e.1 = cid then (e.1, e.2 ++ [s]) else e)).lookup c
        = t.lookup c
  | [] => rfl
  | (k, v) :: t => by
    by_cases hk : k = cid
    · subst hk
      have hb : (c == k) = false := beq_eq_false_iff_ne.mpr hne
      simpa [List.lookup_cons, hb] using lookup_map_bump_other k s c hne t
    · by_cases hc : c = k
      · subst hc
        simp [List.lookup_cons, hk]
      · have hb : (c == k) = false := beq_eq_false_iff_ne.mpr hc
        simpa [List.lookup_cons, hk, hb] using lookup_map_bump_other cid s c hne t

/-- Removing a CID's entry erases it: the resulting table has no binding
for that CID. -/
theorem removeEntry_lookup_none (table table' : Table) (chans : List Nat) (cid : Nat)
    (h : removeEntry table cid = some (chans, table')) :
    table'.lookup cid = none := by
  unfold removeEntry at h
  cases hl : table.lookup cid with
  | none => simp [hl] at h
  | some v =>
    simp only [hl, Option.some.injEq, Prod.mk.injEq] at h
    rw [← h.2]
    exact lookup_filter_ne_self cid table

/-- Registering a sink appends it to the waiter list of its CID, keeping
earlier waiters and their order. -/
theorem registerSink_lookup_self (table : Table) (cid s : Nat) :
    (registerSink table cid s).lookup cid =
      some (((table.lookup cid).getD []) ++ [s]) := by
  unfold registerSink
  cases hl : table.lookup cid with
  | some v => simp [lookup_map_bump_self, hl]
  | none => simp [List.lookup_append, hl]

/-- Registering a sink for one CID does not change the waiter list of any
other CID. -/
theorem registerSink_lookup_other (table : Table) (cid s c : Nat) (hne : c ≠ cid) :
    (registerSink table cid s).lookup c = table.lookup c := by
  unfold registerSink
  cases hl : table.lookup cid with
  | some v => simp [lookup_map_bump_other cid s c hne]
  | none =>
    simp [List.lookup_append, List.lookup_cons, beq_eq_false_iff_ne.mpr hne]

/-- The peer itself is in the explicit-peer set after `add_explicit_peer`. -/
theorem mem_addExplicitPeer (peersSet : List Nat) (p : Nat) :
    p ∈ addExplicitPeer peersSet p := by
  unfold addExplicitPeer
  by_cases h : p ∈ peersSet <;> simp [h]

/-- The not-found error text contains the phrase `"not found"`. -/
theorem notFound_phrase_infix (cid : Nat) :
    ("not found").data <:+: (notFoundMsg cid).data := by
  refine ⟨("The requested block with cid " ++ toString cid ++ " is ").data,
    (" with any peers").data, ?_⟩
  have h : (" is ").data ++ (("not found").data ++ (" with any peers").data)
      = (" is not found with any peers").data := by decide
  simp only [notFoundMsg, String.data_append, List.append_assoc, h]

/-- The not-found error text contains the rendered CID. -/
theorem cid_infix_notFoundMsg (cid : Nat) :
    (toString cid).data <:+: (notFoundMsg cid).data := by
  exact ⟨("The requested block with cid ").data, (" is not found with any peers").data,
    by simp [notFoundMsg, String.data_append, List.append_assoc]⟩

/-! ## Claim theorems -/

/-- C1 counterexample: with a waiter registered for cid 7, `block_found =
true` and a store that reports the block absent, the handler never
returns (the wait loop of service.rs:287-291 spins forever), so the
waiter does not receive the not-found error the claim promises — it
receives nothing at all. -/
theorem c1_counterexample :
    handleBitswapEvent (fun _ => some false) [(7, [0])] ⟨7, 1, true⟩ = Run.hang
    ∧ (handleBitswapEvent (fun _ => some false) [(7, [0])] ⟨7, 1, true⟩).isDone
        = false := by
  decide

/-- C1 (amended): on a block-exchange completion for a cid with a
registered waiter list, the whole list is removed in one step (the
resulting table has no entry for the cid), and — provided the store's
`contains` answer is error-free and, when `block_found` is true, reports
the block present (otherwise the handler blocks in its wait loop and
delivers nothing) — each waiter receives, in registration order, `Ok(())`
if the block is present and otherwise an error whose text contains the
cid and the phrase `"not found"`. -/
theorem c1_bitswap_complete_delivery (contains : Nat → Option Bool)
    (table table' : Table) (chans : List Nat) (cid qid : Nat) (found b : Bool)
    (hrem : removeEntry table cid = some (chans, table'))
    (hc : contains cid = some b)
    (hfb : found = true → b = true) :
    handleBitswapEvent contains table ⟨cid, qid, found⟩ =
      Run.done ⟨[qid], [(cid, qid, found)], table',
        chans.map (fun ch =>
          (ch, if b then Reply.ok else Reply.err (notFoundMsg cid))), []⟩
    ∧ table'.lookup cid = none
    ∧ ("not found").data <:+: (notFoundMsg cid).data
    ∧ (toString cid).data <:+: (notFoundMsg cid).data := by
  refine ⟨?_, removeEntry_lookup_none table table' chans cid hrem,
    notFound_phrase_infix cid, cid_infix_notFoundMsg cid⟩
  cases found with
  | true =>
    have hb : b = true := hfb rfl
    subst hb
    simp [handleBitswapEvent, hrem, hc, deliverAll_const contains cid true chans hc]
  | false =>
    simp [handleBitswapEvent, hrem, hc, deliverAll_const contains cid b chans hc]

/-- C1 witness: two waiters for cid 5, block found and present — both
receive `Ok` in registration order and the entry is erased. -/
theorem c1_bitswap_complete_delivery_witness :
    handleBitswapEvent (fun _ => some true) [(5, [2, 3])] ⟨5, 9, true⟩ =
      Run.done ⟨[9], [(5, 9, true)], [], [(2, Reply.ok), (3, Reply.ok)], []⟩ :=
  (c1_bitswap_complete_delivery (fun _ => some true) [(5, [2, 3])] [] [2, 3] 5 9
    true true (by decide) rfl (fun _ => rfl)).1

/-- C2: the block-presence wait of service.rs:287-291 is not the bounded,
yielding back-off the claim describes: against a store that never reports
the block present, the loop polls forever — for every observation bound
`fuel` it has not terminated — with no sleep, back-off or timeout between
polls. -/
theorem c2_busy_wait_never_terminates :
    ∀ fuel : Nat, waitForBlock (fun _ => false) fuel = none := by
  intro fuel
  induction fuel with
  | zero => rfl
  | succ n ih => simp [waitForBlock, ih]

/-- C3: a `GetBitswap` command handled with an empty peer set delivers
exactly one reply — the no-peers error — on the command's sink, registers
no waiter (the table is unchanged) and dispatches no query. -/
theorem c3_get_bitswap_no_peers (table : Table) (cid : Nat) (q : BitswapType)
    (sender : Nat) :
    handle_command [] table (UrsaCommand.getBitswap cid q sender) =
      Run.done ⟨table, [(sender, ReplyVal.errMsg noPeersMsg)], []⟩ := rfl

/-- C4: a `GetBitswap` command handled with a non-empty peer set appends
the reply sink to the pending-query entry for the cid (creating it if
absent, keeping earlier waiters in order, leaving other cids untouched)
and dispatches exactly one query, `get_block` for `Get` and `sync_block`
for `Sync`, over the current peers. -/
theorem c4_get_bitswap_with_peers (table : Table) (cid : Nat) (q : BitswapType)
    (sender : Nat) (peers : List Nat) (h : peers ≠ []) :
    handle_command peers table (UrsaCommand.getBitswap cid q sender) =
      Run.done ⟨registerSink table cid sender, [],
        [match q with
         | .get => Effect.queryGetBlock cid peers
         | .sync => Effect.querySyncBlock cid peers]⟩
    ∧ (registerSink table cid sender).lookup cid
        = some (((table.lookup cid).getD []) ++ [sender])
    ∧ ∀ c, c ≠ cid →
        (registerSink table cid sender).lookup c = table.lookup c := by
  refine ⟨?_, registerSink_lookup_self table cid sender,
    fun c hc => registerSink_lookup_other table cid sender c hc⟩
  cases peers with
  | nil => exact absurd rfl h
  | cons p ps => rfl

/-- C4 witness: one prior waiter for cid 5; the new sink is appended after
it and a `get_block` query is dispatched. -/
theorem c4_get_bitswap_with_peers_witness :
    handle_command [4] [(5, [1])] (UrsaCommand.getBitswap 5 .get 2) =
      Run.done ⟨[(5, [1, 2])], [], [Effect.queryGetBlock 5 [4]]⟩ :=
  (c4_get_bitswap_with_peers [(5, [1])] 5 .get 2 [4] (by decide)).1

/-- C5 counterexample: the connection limits of `UrsaService::new` are
written `2 << 9` and the buffer sizes `2 << 7`, which are `2^10 = 1024`
and `2^8 = 256`, not the `2^9` and `2^7` the claim states. -/
theorem c5_limits_counterexample :
    ¬ (max_pending_incoming = 2 ^ 9 ∧ max_pending_outgoing = 2 ^ 9
       ∧ max_established_incoming = 2 ^ 9 ∧ max_established_outgoing = 2 ^ 9
       ∧ max_established_per_peer = 8 ∧ dial_concurrency_factor = 8
       ∧ notify_handler_buffer_size = 2 ^ 7
       ∧ connection_event_buffer_size = 2 ^ 7) := by
  decide

/-- C5 (amended): the swarm is configured with max pending-in,
pending-out, established-in and established-out connections each
`2 << 9 = 1024 = 2^10`, max established per peer `8`, dial concurrency
factor `8`, and handler and connection event buffer sizes
`2 << 7 = 256 = 2^8`. -/
theorem c5_limits_values :
    max_pending_incoming = 1024 ∧ max_pending_outgoing = 1024
    ∧ max_established_incoming = 1024 ∧ max_established_outgoing = 1024
    ∧ max_established_per_peer = 8 ∧ dial_concurrency_factor = 8
    ∧ notify_handler_buffer_size = 256 ∧ connection_event_buffer_size = 256 := by
  decide

/-- C6 counterexample: handling a `SendResponse` command hits the
`todo!()` of service.rs:578 and panics, and a store error during the
block-presence check (a waiter registered, `block_found = true`,
`contains` returning an error) panics the `unwrap` of service.rs:288 —
contrary to the claim that neither a `SendResponse` command nor a store
error during the block-presence check aborts the service. -/
theorem c6_counterexample :
    handle_command [] [] (UrsaCommand.sendResponse 0 0 0) = Run.panic
    ∧ handleBitswapEvent (fun _ => none) [(7, [0])] ⟨7, 1, true⟩ = Run.panic := by
  decide

/-- C6 (amended): every command other than `SendResponse` is handled to
completion without panic, while `SendResponse` panics; the
bitswap-completion branch completes whenever the store's `contains`
succeeds and reports the block present, a store error during the
block-presence wait panics the `unwrap`, and a persistently absent
block with `block_found = true` hangs the wait loop; and the service
loop ends only when the swarm stream or the command stream ends, each
collapsing it with an error while delivered items always continue it. -/
theorem c6_handlers_total :
    (∀ (peers : List Nat) (table : Table) (cmd : UrsaCommand),
        (∀ rid resp ch, cmd ≠ UrsaCommand.sendResponse rid resp ch) →
        (handle_command peers table cmd).isDone = true)
    ∧ handle_command [] [] (UrsaCommand.sendResponse 0 0 0) = Run.panic
    ∧ (∀ (contains : Nat → Option Bool) (table : Table) (info : BitswapInfo),
        contains info.cid = some true →
        (handleBitswapEvent contains table info).isDone = true)
    ∧ (∀ (contains : Nat → Option Bool) (table table' : Table)
        (chans : List Nat) (info : BitswapInfo),
        removeEntry table info.cid = some (chans, table') →
        info.blockFound = true →
        contains info.cid = none →
        handleBitswapEvent contains table info = Run.panic)
    ∧ (∀ (contains : Nat → Option Bool) (table table' : Table)
        (chans : List Nat) (info : BitswapInfo),
        removeEntry table info.cid = some (chans, table') →
        info.blockFound = true →
        contains info.cid = some false →
        handleBitswapEvent contains table info = Run.hang)
    ∧ loopStep (LoopInput.swarmEvent none) = Except.error "Swarm Event invalid!"
    ∧ loopStep (LoopInput.command none) = Except.error "Command invalid!"
    ∧ (∀ e, loopStep (LoopInput.swarmEvent (some e)) = Except.ok ())
    ∧ (∀ c, loopStep (LoopInput.command (some c)) = Except.ok ()) := by
  refine ⟨?_, rfl, ?_, ?_, ?_, rfl, rfl, fun e => rfl, fun c => rfl⟩
  · intro peers table cmd hns
    cases cmd with
    | getBitswap cid q sender =>
      by_cases hp : peers.isEmpty <;> simp [handle_command, hp, Run.isDone]
    | put cid s => rfl
    | getPeers s => rfl
    | startProviding cids s => rfl
    | sendRequest p r ch => rfl
    | sendResponse rid resp ch => exact absurd rfl (hns rid resp ch)
    | gossipsubMessage t m => rfl
  · intro contains table info hc
    cases hrem : removeEntry table info.cid with
    | none => simp [handleBitswapEvent, hrem, Run.isDone]
    | some pr =>
      obtain ⟨chans, table'⟩ := pr
      cases hbf : info.blockFound <;>
        simp [handleBitswapEvent, hrem, hbf, hc,
          deliverAll_const contains info.cid true chans hc, Run.isDone]
  · intro contains table table' chans info hrem hbf hc
    simp [handleBitswapEvent, hrem, hbf, hc]
  · intro contains table table' chans info hrem hbf hc
    simp [handleBitswapEvent, hrem, hbf, hc]

/-- C6 witness: a `Put` command completes; a bitswap completion with the
block present completes; with a waiter and a store error the handler
panics; with a waiter and a store stuck at absent it hangs. -/
theorem c6_handlers_total_witness :
    (handle_command [] [] (UrsaCommand.put 0 0)).isDone = true
    ∧ (handleBitswapEvent (fun _ => some true) [(0, [1])] ⟨0, 0, true⟩).isDone
        = true
    ∧ handleBitswapEvent (fun _ => none) [(2, [5])] ⟨2, 4, true⟩ = Run.panic
    ∧ handleBitswapEvent (fun _ => some false) [(2, [5])] ⟨2, 4, true⟩ = Run.hang :=
  ⟨c6_handlers_total.1 [] [] (UrsaCommand.put 0 0)
      (fun _ _ _ h => UrsaCommand.noConfusion h),
   c6_handlers_total.2.2.1 (fun _ => some true) [(0, [1])] ⟨0, 0, true⟩ rfl,
   c6_handlers_total.2.2.2.1 (fun _ => none) [(2, [5])] [] [5] ⟨2, 4, true⟩
      (by decide) rfl rfl,
   c6_handlers_total.2.2.2.2.1 (fun _ => some false) [(2, [5])] [] [5] ⟨2, 4, true⟩
      (by decide) rfl rfl⟩

/-- C7: on a NAT transition from `Unknown` to `Private` with the relay
client enabled and a non-empty bootstrap list, the handler picks the
bootstrap pair at the uniformly random index `r % n`, appends
`/p2p/<relay_peer>/p2p-circuit` to its address and listens on the result;
if opening that listener fails, the `expect` panics (fatal). -/
theorem c7_nat_private_relay (bootstrapAddrs : List (Nat × Multiaddr)) (r : Nat)
    (listenOk : Multiaddr → Bool) (h : bootstrapAddrs ≠ []) :
    handleNatStatusChanged true bootstrapAddrs r listenOk
        NatStatus.Unknown NatStatus.Private =
      (let pa := (bootstrapAddrs.get? (r % bootstrapAddrs.length)).getD (0, [])
       if listenOk (pa.2 ++ [Proto.p2p pa.1, Proto.p2pCircuit])
       then NatAction.listenOn (pa.2 ++ [Proto.p2p pa.1, Proto.p2pCircuit])
       else NatAction.panicListenFailed) := by
  cases bootstrapAddrs with
  | nil => exact absurd rfl h
  | cons hd tl =>
    have hlt : r % (hd :: tl).length < (hd :: tl).length :=
      Nat.mod_lt _ (by simp)
    cases hget : (hd :: tl)[r % (hd :: tl).length]? with
    | none =>
      rw [List.getElem?_eq_getElem hlt] at hget
      exact Option.noConfusion hget
    | some pa =>
      obtain ⟨p, a⟩ := pa
      simp only [List.length_cons] at hget
      simp [handleNatStatusChanged, chooseUniform, List.get?_eq_getElem?, hget]

/-- C7 witness: one bootstrap pair, random draw 5, listening succeeds —
the relay listener is opened on the extended address. -/
theorem c7_nat_private_relay_witness :
    handleNatStatusChanged true [(3, [Proto.other 0])] 5 (fun _ => true)
        NatStatus.Unknown NatStatus.Private =
      NatAction.listenOn [Proto.other 0, Proto.p2p 3, Proto.p2pCircuit] :=
  c7_nat_private_relay [(3, [Proto.other 0])] 5 (fun _ => true) (by decide)

/-- C8: a block-exchange completion whose cid has no registered waiter is
dropped: no reply, no external event, table unchanged, while the query is
still cancelled and the metric still recorded. -/
theorem c8_bitswap_no_waiter (contains : Nat → Option Bool) (table : Table)
    (cid qid : Nat) (found : Bool) (h : table.lookup cid = none) :
    handleBitswapEvent contains table ⟨cid, qid, found⟩ =
      Run.done ⟨[qid], [(cid, qid, found)], table, [], []⟩ := by
  simp [handleBitswapEvent, removeEntry, h]

/-- C8 witness: empty table, completion for cid 0 — dropped with the
query cancelled and the metric recorded. -/
theorem c8_bitswap_no_waiter_witness :
    handleBitswapEvent (fun _ => some true) [] ⟨0, 1, true⟩ =
      Run.done ⟨[1], [(0, 1, true)], [], [], []⟩ :=
  c8_bitswap_no_waiter (fun _ => some true) [] 0 1 true rfl

/-- C9: an identify `Received` event adds the peer as an explicit gossip
peer and installs each listen address into both the discovery and the
request/response address books if and only if the advertised protocols
include the service's protocol name; otherwise no state changes. -/
theorem c9_identify_received (st : IdentifyState) (p : Nat) (info : IdentifyInfo) :
    (info.protocols.any (fun name => name = PROTOCOL_NAME) = true →
      (handle_identify st p info).gossipExplicitPeers
          = addExplicitPeer st.gossipExplicitPeers p
        ∧ p ∈ (handle_identify st p info).gossipExplicitPeers
        ∧ (handle_identify st p info).discoveryAddrs
            = st.discoveryAddrs ++ info.listenAddrs.map (fun a => (p, a))
        ∧ (handle_identify st p info).rrAddrs
            = st.rrAddrs ++ info.listenAddrs.map (fun a => (p, a)))
    ∧ (info.protocols.any (fun name => name = PROTOCOL_NAME) = false →
      handle_identify st p info = st) := by
  constructor
  · intro h
    refine ⟨?_, ?_, ?_, ?_⟩ <;> simp [handle_identify, h, mem_addExplicitPeer]
  · intro h
    simp [handle_identify, h]

/-- C9 witness: a peer advertising the protocol name is added and its
address installed; the books start empty. -/
theorem c9_identify_received_witness :
    (handle_identify ⟨[], [], []⟩ 1
        ⟨[PROTOCOL_NAME], [[Proto.other 2]]⟩).gossipExplicitPeers = [1]
    ∧ (handle_identify ⟨[], [], []⟩ 1
        ⟨[PROTOCOL_NAME], [[Proto.other 2]]⟩).discoveryAddrs
          = [(1, [Proto.other 2])] := by
  have h := (c9_identify_received ⟨[], [], []⟩ 1
    ⟨[PROTOCOL_NAME], [[Proto.other 2]]⟩).1 (by decide)
  exact ⟨h.1.trans (by decide), h.2.2.1.trans (by decide)⟩

/-- C10: a `Put` command is a no-op that returns `Ok`: the handler
completes, sends nothing on the command's reply sink (its sender is
dropped, so the caller's receiver sees a closed channel), changes no
table state and performs no swarm effect. -/
theorem c10_put_noop (peers : List Nat) (table : Table) (cid s : Nat) :
    handle_command peers table (UrsaCommand.put cid s) =
      Run.done ⟨table, [], []⟩ := rfl

end Ursa
